import Mathlib

/-!
Verification of the particle-kinetics balloon simulation and the barter
agent loop of the "money-explained" web application.

The embedding translates the numeric core of `useBalloonSim` (the
`step` integrator, `initParticles`, the parameter-settling effect, and the
`tick` interface) and of `BarterSim` (the pairwise trade loop) into Lean
functions over the real numbers.  JavaScript numbers are modelled as `ℝ`;
every call to `Math.random` / the Box–Muller Gaussian sampler is threaded
through explicitly as an oracle input, so the integrator is a pure function
of state, parameters and the random stream.  A second, `Option ℝ`-valued
model of the per-particle step captures non-finite (NaN/Infinity)
propagation for the sanitize-phase claim.
-/

noncomputable section

/-- A 3-vector with real components, modelling `THREE.Vector3`. -/
structure V3 where
  x : ℝ
  y : ℝ
  z : ℝ

namespace V3

def add (a b : V3) : V3 := ⟨a.x + b.x, a.y + b.y, a.z + b.z⟩

def sub (a b : V3) : V3 := ⟨a.x - b.x, a.y - b.y, a.z - b.z⟩

def smul (c : ℝ) (v : V3) : V3 := ⟨c * v.x, c * v.y, c * v.z⟩

def dot (a b : V3) : ℝ := a.x * b.x + a.y * b.y + a.z * b.z

/-- Models `THREE.Vector3.lengthSq`. -/
def lengthSq (v : V3) : ℝ := v.x * v.x + v.y * v.y + v.z * v.z

/-- Models `THREE.Vector3.length`. -/
def length (v : V3) : ℝ := Real.sqrt v.lengthSq

/-- Models `THREE.Vector3.normalize`, which divides by `this.length() || 1`
(a zero length falls back to `1`). -/
def normalize (v : V3) : V3 :=
  smul (1 / (if v.length = 0 then 1 else v.length)) v

def zero : V3 := ⟨0, 0, 0⟩

end V3

/-- Models `Math.cbrt` on non-negative reals (every call site passes a
non-negative argument). -/
def cbrt (x : ℝ) : ℝ := x ^ ((1 : ℝ) / 3)

/-- Models `THREE.MathUtils.clamp value min max = Math.max(min, Math.min(max, value))`. -/
def clampR (v lo hi : ℝ) : ℝ := max lo (min hi v)

/-- Models `THREE.MathUtils.lerp x y t = (1 - t) * x + t * y`. -/
def lerp (x y t : ℝ) : ℝ := (1 - t) * x + t * y

/-! ## The balloon simulation (`useBalloonSim` in the source) -/

/-- A gas particle: `{ position, velocity }`. -/
structure Particle where
  position : V3
  velocity : V3

/-- Models `sampleGaussian(mean, stdDev)` via Box–Muller, as a function of the two
(nonzero) uniform draws `u`, `v`. -/
def sampleGaussian (u v mean stdDev : ℝ) : ℝ :=
  mean + (Real.sqrt (-2.0 * Real.log u) * Real.cos (2.0 * Real.pi * v)) * stdDev

/-- Per-axis standard deviation target derived from the temperature:
`vRms = sqrt((3 * k * T) / 1)` with `k = 1`, and `std = vRms / sqrt(3)`
(the integrator fixes the mass at `1`). -/
def stdTargetOf (T : ℝ) : ℝ := Real.sqrt (3 * 1 * T / 1) / Real.sqrt 3

/-- Target root-mean-square speed `sqrt((3 * k * T) / 1)` with `k = 1`. -/
def vRmsTargetOf (T : ℝ) : ℝ := Real.sqrt (3 * 1 * T / 1)

/-- The thermostat scaling of `step`:
`currentStd = |v| / sqrt 3`,
`scale = (1 - 0.06) + 0.06 * (stdTarget / max 1e-6 currentStd)`,
and the velocity is multiplied by `scale` when `scale > 0`
(the JavaScript guard `Number.isFinite(scale)` is vacuous over `ℝ`). -/
def thermostat (stdTarget : ℝ) (v : V3) : V3 :=
  let currentStd := v.length / Real.sqrt 3
  let scale := (1 - 0.06) + 0.06 * (stdTarget / max 0.000001 currentStd)
  if 0 < scale then V3.smul scale v else v

/-- Boundary reflection `vN = (v ⬝ n) n`, `vT = v - vN`, new velocity
`vT - vN`, for an arbitrary vector `n`.  The step below passes the normal
already scaled to length `R - 1e-4`: the source's
`p.position.copy(n.multiplyScalar(R - 1e-4))` mutates `n` in place
(`THREE.Vector3.multiplyScalar` scales `this`), so the subsequent
`p.velocity.dot(n)` and `n.clone()` see the scaled vector, and this
operation is elastic (speed-preserving) only for a unit `n`. -/
def reflect (v n : V3) : V3 :=
  let vN := V3.smul (V3.dot v n) n
  V3.sub (V3.sub v vN) vN

/-- Tangential jitter applied after reflection: `jitter = 0.04 * vRmsTarget`,
`tangent = rand - (rand ⬝ n) n`; when `tangent.lengthSq > 1e-8` the velocity
gains `((random - 0.5) * jitter) • tangent.normalize`. `jd` is the
`randomDirection()` draw and `ju` the uniform `Math.random()` draw; `n` is
the normal as the source left it at this point — scaled to `R - 1e-4` by the
in-place mutation noted at `reflect`. -/
def collideJitter (vRmsTarget : ℝ) (n jd : V3) (ju : ℝ) (v : V3) : V3 :=
  let jitter := 0.04 * vRmsTarget
  let tangent := V3.sub jd (V3.smul (V3.dot jd n) n)
  if 0.00000001 < tangent.lengthSq then
    V3.add v (V3.smul ((ju - 0.5) * jitter) tangent.normalize)
  else v

/-- Random values consumed by `step` for one particle: the three unit-variance
Gaussian draws behind `sampleGaussian(0, noiseSigma)`, the
`randomDirection()` vector, and the uniform draw for the jitter sign. -/
structure StepRand where
  noise : V3
  jitterDir : V3
  jitterU : ℝ

/-- One integrator sub-step for a single particle (the body of the
`for` loop in `step`): thermostat, Gaussian noise (`noiseSigma • z`),
gravity and position integration, boundary collision.  On collision the
source computes `n = position.normalize()` and then mutates it in place via
`n.multiplyScalar(R - 1e-4)` when clamping the position, so the reflection
`vN = n.clone().multiplyScalar(velocity.dot(n))` and the tangent
`rand - n.clone().multiplyScalar(rand.dot(n))` both use the normal scaled
to length `R - 1e-4` (`nScaled` here), not the unit normal.  The
NaN-sanitize phase is the identity over `ℝ`; the `Option`-valued model
`stepParticleJS` below captures it. -/
def stepParticle (T : ℝ) (g : V3) (dt R : ℝ) (ρ : StepRand) (p : Particle) : Particle :=
  let vRms := vRmsTargetOf T
  let stdTarget := vRms / Real.sqrt 3
  let noiseSigma := stdTarget * 0.02
  let v1 := thermostat stdTarget p.velocity
  let v2 := V3.add v1 (V3.smul noiseSigma ρ.noise)
  let v3 := V3.add v2 (V3.smul dt g)
  let pos1 := V3.add p.position (V3.smul dt v3)
  let r := pos1.length
  if R ≤ r then
    let nScaled := V3.smul (R - 0.0001) pos1.normalize
    let pos2 := nScaled
    let v4 := reflect v3 nScaled
    let v5 := collideJitter vRms nScaled ρ.jitterDir ρ.jitterU v4
    ⟨pos2, v5⟩
  else ⟨pos1, v3⟩

/-- Index-passing map used to feed the per-particle random values of the
`for` loop over `st.parts`. -/
def mapWithIndex (f : ℕ → Particle → Particle) : ℕ → List Particle → List Particle
  | _, [] => []
  | i, p :: ps => f i p :: mapWithIndex f (i + 1) ps

/-- The asymmetric easing of the live radius toward the clamped target:
`growBoost = if targetRadius > R then 1.4 else 1.0` and
`R' = lerp R targetRadius (min 1 (0.12 * growBoost))`. -/
def easeRadius (R targetRadius : ℝ) : ℝ :=
  let growBoost : ℝ := if R < targetRadius then 1.4 else 1.0
  lerp R targetRadius (min 1 (0.12 * growBoost))

/-- The radius update at the end of `step`: thermal fallback for a degenerate
mean-square speed, additive target volume
`0.6 + 0.010 * max 1 N + 0.050 * meanV2`, conversion to a radius via the
sphere-volume formula, clamp to `[0.8, 3.2]` and asymmetric easing. -/
def radiusUpdate (R T : ℝ) (n : ℕ) (meanV2Local : ℝ) : ℝ :=
  let vRms := vRmsTargetOf T
  let finiteMeanV2 := if 0.00000001 < meanV2Local then meanV2Local else vRms * vRms
  let targetVolume := 0.6 + 0.010 * max 1 (n : ℝ) + 0.050 * finiteMeanV2
  let targetRadiusRaw := cbrt (max 0 (3 * targetVolume / (4 * Real.pi)))
  easeRadius R (clampR targetRadiusRaw 0.8 3.2)

/-- Simulation state held in `stateRef` plus the `speeds` React state
(`mass` is fixed at `1` everywhere and omitted). -/
structure SimState where
  parts : List Particle
  radius : ℝ
  temperature : ℝ
  speeds : List ℝ

/-- One full `step(dt)`: update every particle, recompute the mean-square
speed (`reduce((a, b) => a + b * b, 0) / length` with `0` for an empty
list), update the radius, and publish the speeds (`[vRmsTarget]` when the
particle list is empty; the `isFinite` remap is the identity over `ℝ`). -/
def step (grav : Bool) (dt : ℝ) (ρ : ℕ → StepRand) (st : SimState) : SimState :=
  let g : V3 := if grav then ⟨0, -9.8, 0⟩ else ⟨0, 0, 0⟩
  let newParts := mapWithIndex (fun i p => stepParticle st.temperature g dt st.radius (ρ i) p) 0 st.parts
  let speedsLocal := newParts.map (fun p => p.velocity.length)
  let meanV2Local :=
    if speedsLocal.length = 0 then 0
    else (speedsLocal.foldl (fun a b => a + b * b) 0) / (speedsLocal.length : ℝ)
  let R' := radiusUpdate st.radius st.temperature st.parts.length meanV2Local
  let safeSpeeds := if speedsLocal.length = 0 then [vRmsTargetOf st.temperature] else speedsLocal
  ⟨newParts, R', st.temperature, safeSpeeds⟩

/-- Time step `dtBase` of the integrator. -/
def dtBase : ℝ := 0.008

/-- Iterated stepping (the `for (let s = 0; s < steps; s++) step(...)` loop),
with an independent random record per step and particle. -/
def runSteps (grav : Bool) (dt : ℝ) (ρ : ℕ → ℕ → StepRand) : ℕ → SimState → SimState
  | 0, st => st
  | k + 1, st => runSteps grav dt ρ k (step grav dt (ρ k) st)

/-- The `tick(alpha)` interface: do nothing when paused, otherwise run
`max(1, floor(2 * alpha))` sub-steps of `dtBase * speedScale`. -/
def tick (grav paused : Bool) (speedScale alpha : ℝ) (ρ : ℕ → ℕ → StepRand) (st : SimState) : SimState :=
  if paused then st
  else runSteps grav (dtBase * speedScale) ρ (max 1 (Int.floor (2 * alpha))).toNat st

/-! ## Particle spawning and parameter settling -/

/-- Models JavaScript `a || b` on numbers, for the (finite) values reaching the
radius/temperature guards: `0` is falsy and replaced by the fallback. -/
def jsOr (a b : ℝ) : ℝ := if a = 0 then b else a

/-- The initial radius stored in `stateRef`:
`Math.max(0.8, Math.min(2.2, radius || 1))`. -/
def initRadius (radius : ℝ) : ℝ := max 0.8 (min 2.2 (jsOr radius 1))

/-- The sanitized radius of the parameter-settling effect:
`THREE.MathUtils.clamp(radius || st.radius || 1, 0.8, 2.2)`. -/
def safeRadiusOf (radius stRadius : ℝ) : ℝ :=
  clampR (jsOr radius (jsOr stRadius 1)) 0.8 2.2

/-- Random values consumed when spawning one fresh particle: the three
uniforms behind `r`, `theta`, `phi` and the three unit-variance Gaussian
draws behind the velocity components. -/
structure SpawnRand where
  u1 : ℝ
  u2 : ℝ
  u3 : ℝ
  gs : V3

/-- One fresh particle of `initParticles` (no `prev` is ever passed at the
two call sites, so the re-sample branch is dead code): a random point inside
the sphere of the given radius and a Gaussian velocity `std • z`. -/
def spawnParticle (radius std : ℝ) (ρ : SpawnRand) : Particle :=
  let r := radius * cbrt ρ.u1
  let theta := Real.arccos (2 * ρ.u2 - 1)
  let phi := 2 * Real.pi * ρ.u3
  { position := ⟨r * Real.sin theta * Real.cos phi,
                 r * Real.sin theta * Real.sin phi,
                 r * Real.cos theta⟩,
    velocity := V3.smul std ρ.gs }

/-- Models `initParticles(n, radius, temperature, mass)` without `prev`:
`vRms = sqrt(3 * k * T / max(0.0001, mass))`, `std = vRms / sqrt 3`,
and `n` fresh particles. -/
def initParticles (n : ℕ) (radius temperature mass : ℝ) (ρ : ℕ → SpawnRand) : List Particle :=
  let vRms := Real.sqrt (3 * 1 * temperature / max 0.0001 mass)
  let std := vRms / Real.sqrt 3
  (List.range n).map (fun i => spawnParticle radius std (ρ i))

/-- The clamp applied to freshly added particles in the settling effect:
`if (rlen > st.radius) p.position.multiplyScalar(st.radius / rlen)`. -/
def clampInside (R : ℝ) (p : Particle) : Particle :=
  if R < p.position.length
  then { p with position := V3.smul (R / p.position.length) p.position }
  else p

/-- The parameter-settling `useEffect` of `useBalloonSim`: sanitize the
incoming temperature and radius, append freshly spawned (and clamped)
particles on a count increase, truncate on a decrease, then store the
sanitized radius and temperature. -/
def settleParams (particles : ℕ) (radius temperature : ℝ) (ρ : ℕ → SpawnRand)
    (st : SimState) : SimState :=
  let safeTemp := max 1 (jsOr temperature 300)
  let safeRadius := safeRadiusOf radius st.radius
  let parts' :=
    if st.parts.length < particles then
      st.parts ++
        (initParticles (particles - st.parts.length) st.radius safeTemp 1 ρ).map
          (clampInside st.radius)
    else if particles < st.parts.length then st.parts.take particles
    else st.parts
  { parts := parts', radius := safeRadius, temperature := safeTemp, speeds := st.speeds }

/-! ## `Option ℝ` model of JavaScript float non-finiteness

`some x` is a finite double of value `x`; `none` is NaN or ±Infinity.
Arithmetic propagates non-finiteness; `Math.sqrt` of a negative value and
division by zero produce non-finite values; NaN comparisons are `false`. -/

def jadd : Option ℝ → Option ℝ → Option ℝ
  | some a, some b => some (a + b)
  | _, _ => none

def jsub : Option ℝ → Option ℝ → Option ℝ
  | some a, some b => some (a - b)
  | _, _ => none

def jmul : Option ℝ → Option ℝ → Option ℝ
  | some a, some b => some (a * b)
  | _, _ => none

def jdiv : Option ℝ → Option ℝ → Option ℝ
  | some a, some b => if b = 0 then none else some (a / b)
  | _, _ => none

def jsqrt : Option ℝ → Option ℝ
  | some a => if a < 0 then none else some (Real.sqrt a)
  | none => none

def jmax : Option ℝ → Option ℝ → Option ℝ
  | some a, some b => some (max a b)
  | _, _ => none

/-- Comparison `a >= b` on doubles: `false` when either side is NaN. -/
def jge : Option ℝ → Option ℝ → Bool
  | some a, some b => decide (b ≤ a)
  | _, _ => false

/-- Comparison `a > b` on doubles: `false` when either side is NaN. -/
def jgt : Option ℝ → Option ℝ → Bool
  | some a, some b => decide (b < a)
  | _, _ => false

/-- A `THREE.Vector3` whose components may be non-finite. -/
structure V3J where
  x : Option ℝ
  y : Option ℝ
  z : Option ℝ

def jV3 (v : V3) : V3J := ⟨some v.x, some v.y, some v.z⟩

def jdot (a b : V3J) : Option ℝ :=
  jadd (jadd (jmul a.x b.x) (jmul a.y b.y)) (jmul a.z b.z)

def jlengthSq (v : V3J) : Option ℝ := jdot v v

def jlength (v : V3J) : Option ℝ := jsqrt (jlengthSq v)

def jsmul (c : Option ℝ) (v : V3J) : V3J := ⟨jmul c v.x, jmul c v.y, jmul c v.z⟩

def jaddV (a b : V3J) : V3J := ⟨jadd a.x b.x, jadd a.y b.y, jadd a.z b.z⟩

def jsubV (a b : V3J) : V3J := ⟨jsub a.x b.x, jsub a.y b.y, jsub a.z b.z⟩

/-- Models `normalize`, which divides by `this.length() || 1`; both a zero and a NaN
length are falsy in JavaScript and fall back to `1`. -/
def jnormalize (v : V3J) : V3J :=
  let denom : Option ℝ :=
    match jlength v with
    | some a => if a = 0 then some 1 else some a
    | none => some 1
  jsmul (jdiv (some 1) denom) v

/-- The sanitize phase of `step`:
`if (!Number.isFinite(c)) c = 0` for one component. -/
def sanitizeJ : Option ℝ → Option ℝ
  | some a => some a
  | none => some 0

def sanitizeV3 (v : V3J) : V3J := ⟨sanitizeJ v.x, sanitizeJ v.y, sanitizeJ v.z⟩

/-- A particle whose components may be non-finite. -/
structure ParticleJ where
  position : V3J
  velocity : V3J

/-- The per-particle body of `step` over possibly non-finite floats,
ending with the NaN-sanitize phase.  The parameters `T`, `g`, `dt`, `R` and
the random draws are finite reals (they are sanitized upstream / produced
by `Math.random`).  As in `stepParticle`, the collision branch uses the
normal already mutated in place to length `R - 1e-4` for both the
reflection and the tangent. -/
def stepParticleJS (T : ℝ) (g : V3) (dt R : ℝ) (ρ : StepRand) (p : ParticleJ) : ParticleJ :=
  let vRms := jsqrt (some (3 * 1 * T / 1))
  let stdTarget := jdiv vRms (jsqrt (some 3))
  let noiseSigma := jmul stdTarget (some 0.02)
  let currentStd := jdiv (jlength p.velocity) (jsqrt (some 3))
  let scale := jadd (some (1 - 0.06)) (jmul (some 0.06) (jdiv stdTarget (jmax (some 0.000001) currentStd)))
  let v1 := match scale with
    | some s => if 0 < s then jsmul (some s) p.velocity else p.velocity
    | none => p.velocity
  let v2 := jaddV v1 (jsmul noiseSigma (jV3 ρ.noise))
  let v3 := jaddV v2 (jV3 (V3.smul dt g))
  let pos1 := jaddV p.position (jsmul (some dt) v3)
  let r := jlength pos1
  let pr : V3J × V3J :=
    if jge r (some R) then
      let nScaled := jsmul (some (R - 0.0001)) (jnormalize pos1)
      let pos2 := nScaled
      let d := jdot v3 nScaled
      let vN := jsmul d nScaled
      let vT := jsubV v3 vN
      let v4 := jsubV vT vN
      let jitter := jmul (some 0.04) vRms
      let tangent := jsubV (jV3 ρ.jitterDir) (jsmul (jdot (jV3 ρ.jitterDir) nScaled) nScaled)
      let v5 :=
        if jgt (jlengthSq tangent) (some 0.00000001) then
          jaddV v4 (jsmul (jmul (some (ρ.jitterU - 0.5)) jitter) (jnormalize tangent))
        else v4
      (pos2, v5)
    else (pos1, v3)
  ⟨sanitizeV3 pr.1, sanitizeV3 pr.2⟩

/-! ## The barter/agent exchange loop

The barter component itself (`BarterSim`) is not among the sources under
src/, so this section is modelled from the specification (section 4.2):
agents hold one of a few good types and want another, each tick every pair
within a small distance threshold is tested, mutual wants trigger a swap
followed by re-picking wants with an elevated chance of the designated
scarce/desirable good, and a failed direct match may still move the scarce
good as an intermediate.  The threshold and the probabilities, which the
spec leaves unnumbered, are parameters. -/

instance : Inhabited Particle := ⟨⟨V3.zero, V3.zero⟩⟩

/-- A fixed random record: zero Gaussian draws, zero jitter direction. -/
def rand0 : StepRand := ⟨V3.zero, V3.zero, 0⟩

/-- A fixed spawn-random record. -/
def spawn0 : SpawnRand := ⟨0, (1 : ℝ) / 2, 0, V3.zero⟩

/-- An empty simulation state of radius `1` and temperature `1`. -/
def stEmpty : SimState := ⟨[], 1, 1, []⟩

/-- A particle resting just inside the maximal radius. -/
def cexPart : Particle := ⟨⟨3.19, 0, 0⟩, V3.zero⟩

/-- A one-particle state at the maximal radius `3.2` and temperature `1`. -/
def cexState : SimState := ⟨[cexPart], 3.2, 1, [0]⟩

namespace V3

theorem lengthSq_nonneg (v : V3) : 0 ≤ v.lengthSq := by
  unfold lengthSq; nlinarith [sq_nonneg v.x, sq_nonneg v.y, sq_nonneg v.z]

theorem length_nonneg (v : V3) : 0 ≤ v.length := Real.sqrt_nonneg _

theorem lengthSq_eq_sq_length (v : V3) : v.lengthSq = v.length ^ 2 := by
  unfold length
  rw [Real.sq_sqrt (lengthSq_nonneg v)]

theorem length_smul (c : ℝ) (v : V3) : (smul c v).length = |c| * v.length := by
  unfold length smul lengthSq
  have h : (c * v.x) * (c * v.x) + (c * v.y) * (c * v.y) + (c * v.z) * (c * v.z)
      = (c * c) * (v.x * v.x + v.y * v.y + v.z * v.z) := by ring
  simp only [h]
  rw [Real.sqrt_mul (by nlinarith [sq_nonneg c] : (0:ℝ) ≤ c * c)]
  congr 1
  rw [show c * c = c ^ 2 by ring, Real.sqrt_sq_eq_abs]

theorem length_zero : (zero).length = 0 := by
  unfold zero length lengthSq
  norm_num

theorem length_pos_of_ne (v : V3) (h : v.length ≠ 0) : 0 < v.length :=
  lt_of_le_of_ne (length_nonneg v) (Ne.symm h)

theorem normalize_length (v : V3) (h : v.length ≠ 0) : (normalize v).length = 1 := by
  unfold normalize
  rw [length_smul]
  rw [if_neg h]
  have hpos : 0 < v.length := length_pos_of_ne v h
  rw [abs_of_pos (one_div_pos.mpr hpos)]
  field_simp

/-- Cauchy–Schwarz for `V3`, squared form (Lagrange identity bound). -/
theorem dot_sq_le (a b : V3) : (dot a b) ^ 2 ≤ a.lengthSq * b.lengthSq := by
  unfold dot lengthSq
  nlinarith [sq_nonneg (a.x * b.y - a.y * b.x), sq_nonneg (a.x * b.z - a.z * b.x),
    sq_nonneg (a.y * b.z - a.z * b.y)]

theorem dot_le_length_mul (a b : V3) : dot a b ≤ a.length * b.length := by
  have h1 : dot a b ≤ |dot a b| := le_abs_self _
  have h2 : |dot a b| = Real.sqrt ((dot a b) ^ 2) := (Real.sqrt_sq_eq_abs _).symm
  have h3 : Real.sqrt ((dot a b) ^ 2) ≤ Real.sqrt (a.lengthSq * b.lengthSq) :=
    Real.sqrt_le_sqrt (dot_sq_le a b)
  have h4 : Real.sqrt (a.lengthSq * b.lengthSq) = a.length * b.length := by
    rw [Real.sqrt_mul (lengthSq_nonneg a)]
    rfl
  linarith [h1, h2 ▸ h3, h4 ▸ (h2 ▸ h3)]

theorem lengthSq_add (a b : V3) :
    (add a b).lengthSq = a.lengthSq + 2 * dot a b + b.lengthSq := by
  unfold add lengthSq dot
  ring

theorem length_add_le (a b : V3) : (add a b).length ≤ a.length + b.length := by
  have hs : (add a b).lengthSq ≤ (a.length + b.length) ^ 2 := by
    rw [lengthSq_add]
    have := dot_le_length_mul a b
    have h1 := lengthSq_eq_sq_length a
    have h2 := lengthSq_eq_sq_length b
    nlinarith
  have h1 : (add a b).length = Real.sqrt (add a b).lengthSq := rfl
  rw [h1]
  calc Real.sqrt (add a b).lengthSq
      ≤ Real.sqrt ((a.length + b.length) ^ 2) := Real.sqrt_le_sqrt hs
    _ = a.length + b.length := by
        rw [Real.sqrt_sq (add_nonneg (length_nonneg a) (length_nonneg b))]

/-- Reverse triangle inequality used for the jitter bound. -/
theorem abs_length_add_sub_le (a b : V3) :
    |(add a b).length - a.length| ≤ b.length := by
  rw [abs_le]
  constructor
  · have h : a.length ≤ (add a b).length + b.length := by
      have hab : a = add (add a b) (smul (-1) b) := by
        unfold add smul
        cases a; cases b
        simp only [mk.injEq]
        refine ⟨by ring, by ring, by ring⟩
      calc a.length = (add (add a b) (smul (-1) b)).length := by rw [← hab]
        _ ≤ (add a b).length + (smul (-1) b).length := length_add_le _ _
        _ = (add a b).length + b.length := by
            rw [length_smul]; norm_num
    linarith
  · have h := length_add_le a b
    linarith

end V3

theorem cbrt_nonneg (x : ℝ) (hx : 0 ≤ x) : 0 ≤ cbrt x :=
  Real.rpow_nonneg hx _

theorem cbrt_cube (c : ℝ) (hc : 0 ≤ c) : cbrt (c ^ 3) = c := by
  unfold cbrt
  rw [← Real.rpow_natCast c 3, ← Real.rpow_mul hc]
  norm_num

theorem cbrt_le_of_le_cube (x c : ℝ) (hx : 0 ≤ x) (hc : 0 ≤ c) (h : x ≤ c ^ 3) :
    cbrt x ≤ c := by
  have h1 : cbrt x ≤ cbrt (c ^ 3) := Real.rpow_le_rpow hx h (by norm_num)
  rw [cbrt_cube c hc] at h1
  exact h1

theorem lt_cbrt_of_cube_lt (x c : ℝ) (hc : 0 ≤ c) (h : c ^ 3 < x) :
    c < cbrt x := by
  have h1 : cbrt (c ^ 3) < cbrt x :=
    Real.rpow_lt_rpow (by positivity) h (by norm_num)
  rw [cbrt_cube c hc] at h1
  exact h1

theorem cbrt_mono (x y : ℝ) (hx : 0 ≤ x) (h : x ≤ y) : cbrt x ≤ cbrt y :=
  Real.rpow_le_rpow hx h (by norm_num)

theorem clampR_mem (v lo hi : ℝ) (h : lo ≤ hi) :
    lo ≤ clampR v lo hi ∧ clampR v lo hi ≤ hi := by
  unfold clampR
  constructor
  · exact le_max_left _ _
  · exact max_le h (min_le_left _ _)

theorem clampR_mono (v w lo hi : ℝ) (h : v ≤ w) : clampR v lo hi ≤ clampR w lo hi := by
  unfold clampR
  exact max_le_max le_rfl (min_le_min le_rfl h)

theorem clampR_eq_of_le (v lo hi : ℝ) (h0 : v ≤ lo) (h1 : lo ≤ hi) :
    clampR v lo hi = lo := by
  unfold clampR
  rw [min_eq_right (le_trans h0 h1), max_eq_left h0]

theorem clampR_eq_self (v lo hi : ℝ) (h0 : lo ≤ v) (h1 : v ≤ hi) :
    clampR v lo hi = v := by
  unfold clampR
  rw [min_eq_right h1, max_eq_right h0]

theorem lerp_mem (x y t lo hi : ℝ) (hx : lo ≤ x ∧ x ≤ hi) (hy : lo ≤ y ∧ y ≤ hi)
    (ht0 : 0 ≤ t) (ht1 : t ≤ 1) : lo ≤ lerp x y t ∧ lerp x y t ≤ hi := by
  unfold lerp
  constructor <;> nlinarith [hx.1, hx.2, hy.1, hy.2]

theorem mapWithIndex_length (f : ℕ → Particle → Particle) (i : ℕ) (ps : List Particle) :
    (mapWithIndex f i ps).length = ps.length := by
  induction ps generalizing i with
  | nil => rfl
  | cons p ps ih => simp [mapWithIndex, ih]

theorem mem_mapWithIndex (f : ℕ → Particle → Particle) (i : ℕ) (ps : List Particle)
    (q : Particle) (h : q ∈ mapWithIndex f i ps) : ∃ j p, p ∈ ps ∧ q = f j p := by
  induction ps generalizing i with
  | nil => simp [mapWithIndex] at h
  | cons p ps ih =>
      simp only [mapWithIndex, List.mem_cons] at h
      rcases h with h | h
      · exact ⟨i, p, List.mem_cons_self p ps, h⟩
      · obtain ⟨j, p', hp', hq⟩ := ih (i + 1) h
        exact ⟨j, p', List.mem_cons_of_mem _ hp', hq⟩

theorem sanitizeJ_isSome (y : Option ℝ) : (sanitizeJ y).isSome = true := by
  cases y <;> rfl

/-! ## Claim C10: pausing freezes the simulation -/

/-- C10: when the `paused` flag is true, `tick` leaves the whole simulation
state — particles, radius and the reported speeds array — unchanged, for
every time-delta argument and random stream. -/
theorem c10_paused_tick_noop (grav paused : Bool) (speedScale alpha : ℝ)
    (ρ : ℕ → ℕ → StepRand) (st : SimState) (h : paused = true) :
    tick grav paused speedScale alpha ρ st = st := by
  subst h
  simp [tick]

/-- Witness for C10 at a concrete paused state. -/
theorem c10_witness :
    tick false true 1 1 (fun _ _ => rand0) cexState = cexState :=
  c10_paused_tick_noop false true 1 1 (fun _ _ => rand0) cexState rfl

/-! ## Claim C8: determinism given the random stream -/

/-- C8: the integrator is deterministic given its randomness: two runs from
equal initial states, with equal gravity flag, time step, step count and
random streams (Gaussian and uniform draws are all threaded through the
`StepRand` records), produce equal states — hence equal particle
trajectories and radii at every step count `n`. -/
theorem c8_deterministic (g₁ g₂ : Bool) (dt₁ dt₂ : ℝ) (n₁ n₂ : ℕ)
    (ρ₁ ρ₂ : ℕ → ℕ → StepRand) (s₁ s₂ : SimState)
    (hg : g₁ = g₂) (hdt : dt₁ = dt₂) (hn : n₁ = n₂) (hρ : ρ₁ = ρ₂) (hs : s₁ = s₂) :
    runSteps g₁ dt₁ ρ₁ n₁ s₁ = runSteps g₂ dt₂ ρ₂ n₂ s₂ := by
  subst hg; subst hdt; subst hn; subst hρ; subst hs; rfl

/-- Witness for C8 at a concrete two-step run. -/
theorem c8_witness :
    runSteps false 0.008 (fun _ _ => rand0) 2 cexState
      = runSteps false 0.008 (fun _ _ => rand0) 2 cexState :=
  c8_deterministic false false 0.008 0.008 2 2 (fun _ _ => rand0) (fun _ _ => rand0)
    cexState cexState rfl rfl rfl rfl rfl

/-! ## Claim C7: sanitize phase and absence of numeric errors -/

/-- C7: in the float model with explicit non-finite values, every component
of a particle produced by the per-particle step is finite (`isSome`),
because the step ends with the sanitize phase; the sanitize phase maps any
non-finite component to `0` and keeps finite components unchanged.  The
step is a total function, so no error is signalled for degenerate inputs
(zero speeds, non-finite components). -/
theorem c7_sanitize_finite :
    (∀ (T : ℝ) (g : V3) (dt R : ℝ) (ρ : StepRand) (p : ParticleJ),
      ((stepParticleJS T g dt R ρ p).position.x.isSome = true) ∧
      ((stepParticleJS T g dt R ρ p).position.y.isSome = true) ∧
      ((stepParticleJS T g dt R ρ p).position.z.isSome = true) ∧
      ((stepParticleJS T g dt R ρ p).velocity.x.isSome = true) ∧
      ((stepParticleJS T g dt R ρ p).velocity.y.isSome = true) ∧
      ((stepParticleJS T g dt R ρ p).velocity.z.isSome = true)) ∧
    sanitizeJ none = some 0 ∧ (∀ x : ℝ, sanitizeJ (some x) = some x) := by
  refine ⟨fun T g dt R ρ p => ?_, rfl, fun x => rfl⟩
  exact ⟨sanitizeJ_isSome _, sanitizeJ_isSome _, sanitizeJ_isSome _,
    sanitizeJ_isSome _, sanitizeJ_isSome _, sanitizeJ_isSome _⟩

/-! ## Claim C9: the direct-barter branch -/

theorem V3.smul_zero_right (c : ℝ) : V3.smul c ⟨0, 0, 0⟩ = ⟨0, 0, 0⟩ := by
  simp [V3.smul]

theorem V3.add_zero_right (v : V3) : V3.add v ⟨0, 0, 0⟩ = v := by
  simp [V3.add]

theorem V3.add_zero_left (v : V3) : V3.add ⟨0, 0, 0⟩ v = v := by
  simp [V3.add]

theorem easeRadius_mem (R t : ℝ) (hR1 : 0.8 ≤ R) (hR2 : R ≤ 3.2)
    (ht1 : 0.8 ≤ t) (ht2 : t ≤ 3.2) :
    0.8 ≤ easeRadius R t ∧ easeRadius R t ≤ 3.2 := by
  simp only [easeRadius]
  split_ifs with h <;>
    exact lerp_mem R t _ 0.8 3.2 ⟨hR1, hR2⟩ ⟨ht1, ht2⟩
      (le_min (by norm_num) (by norm_num)) (min_le_left _ _)

theorem radiusUpdate_mem (R T : ℝ) (n : ℕ) (m : ℝ) (hR1 : 0.8 ≤ R) (hR2 : R ≤ 3.2) :
    0.8 ≤ radiusUpdate R T n m ∧ radiusUpdate R T n m ≤ 3.2 := by
  simp only [radiusUpdate]
  have hc := clampR_mem (cbrt (max 0 (3 * (0.6 + 0.010 * max 1 (n : ℝ) +
    0.050 * (if 0.00000001 < m then m else vRmsTargetOf T * vRmsTargetOf T)) / (4 * Real.pi))))
    0.8 3.2 (by norm_num)
  exact easeRadius_mem R _ hR1 hR2 hc.1 hc.2

theorem step_radius_eq (grav : Bool) (dt : ℝ) (ρ : ℕ → StepRand) (st : SimState) :
    ∃ m, (step grav dt ρ st).radius
      = radiusUpdate st.radius st.temperature st.parts.length m :=
  ⟨_, rfl⟩

/-! ## Claim C6: the bounding radius stays in [0.8, 3.2] -/

/-- C6: the initial radius is clamped (into `[0.8, 2.2] ⊆ [0.8, 3.2]`), every
radius accepted from parameters is clamped (into `[0.8, 2.2] ⊆ [0.8, 3.2]`),
and one integration step maps a radius in `[0.8, 3.2]` back into
`[0.8, 3.2]` (the per-step target is clamped to `[0.8, 3.2]` and the easing
is a convex combination), so the live radius always lies in `[0.8, 3.2]`. -/
theorem c6_radius_range :
    (∀ radius : ℝ, 0.8 ≤ initRadius radius ∧ initRadius radius ≤ 3.2) ∧
    (∀ radius stRadius : ℝ,
      0.8 ≤ safeRadiusOf radius stRadius ∧ safeRadiusOf radius stRadius ≤ 3.2) ∧
    (∀ (grav : Bool) (dt : ℝ) (ρ : ℕ → StepRand) (st : SimState),
      0.8 ≤ st.radius → st.radius ≤ 3.2 →
      0.8 ≤ (step grav dt ρ st).radius ∧ (step grav dt ρ st).radius ≤ 3.2) := by
  refine ⟨fun radius => ?_, fun radius stRadius => ?_, fun grav dt ρ st h1 h2 => ?_⟩
  · unfold initRadius
    exact ⟨le_max_left _ _, max_le (by norm_num) (le_trans (min_le_left _ _) (by norm_num))⟩
  · unfold safeRadiusOf
    have h := clampR_mem (jsOr radius (jsOr stRadius 1)) 0.8 2.2 (by norm_num)
    exact ⟨h.1, le_trans h.2 (by norm_num)⟩
  · obtain ⟨m, hm⟩ := step_radius_eq grav dt ρ st
    rw [hm]
    exact radiusUpdate_mem st.radius st.temperature st.parts.length m h1 h2

/-- Witness for C6: one step from the concrete state of radius `3.2`. -/
theorem c6_witness :
    0.8 ≤ (step false 0.008 (fun _ => rand0) cexState).radius ∧
    (step false 0.008 (fun _ => rand0) cexState).radius ≤ 3.2 :=
  c6_radius_range.2.2 false 0.008 (fun _ => rand0) cexState
    (by norm_num [cexState]) (by norm_num [cexState])

/-! ## Claim C5: the collision handling and the in-place-mutated normal -/

/-- C5: evaluation of the collision handling at the failing input.  The
source mutates the outward normal in place to length `R - 1e-4` while
clamping the position, before `vN` and the tangent are computed (see
`stepParticle`), so at `R = 3.2` the normal used for reflection is
`(3.1999, 0, 0)` for a particle crossing along the x-axis.  An incoming
velocity `(1, 0, 0)` of speed `1` then leaves the reflection — and the full
collision handling with zero jitter (uniform draw `0.5`) — with speed
`19.47872002`: the reflection does not preserve speed, and the speed change
`18.478...` vastly exceeds the claimed jitter bound `0.02 * vRmsTarget`
(about `0.035` at temperature `1`), contradicting the code's own
`reflect` / `maintain temperature` comments and the spec's elastic-reflection
intent. -/
theorem c5_mutated_normal :
    V3.smul ((3.2:ℝ) - 0.0001) (V3.normalize ⟨3.2, 0, 0⟩) = ⟨3.1999, 0, 0⟩ ∧
    (reflect ⟨1, 0, 0⟩ ⟨3.1999, 0, 0⟩).length = 19.47872002 ∧
    (collideJitter (vRmsTargetOf 1) ⟨3.1999, 0, 0⟩ ⟨0, 1, 0⟩ 0.5
        (reflect ⟨1, 0, 0⟩ ⟨3.1999, 0, 0⟩)).length = 19.47872002 ∧
    V3.length ⟨1, 0, 0⟩ = 1 ∧
    0.02 * vRmsTargetOf 1 < 19.47872002 - 1 := by
  have hlen32 : V3.length ⟨3.2, 0, 0⟩ = 3.2 := by
    show Real.sqrt ((3.2:ℝ) * 3.2 + 0 * 0 + 0 * 0) = 3.2
    rw [show ((3.2:ℝ) * 3.2 + 0 * 0 + 0 * 0) = 3.2 ^ 2 by norm_num,
      Real.sqrt_sq (by norm_num)]
  have hnorm : V3.normalize ⟨3.2, 0, 0⟩ = ⟨1, 0, 0⟩ := by
    unfold V3.normalize
    rw [hlen32, if_neg (by norm_num : (3.2:ℝ) ≠ 0)]
    unfold V3.smul
    congr 1 <;> norm_num
  have hreflv : reflect ⟨1, 0, 0⟩ ⟨3.1999, 0, 0⟩ = ⟨-19.47872002, 0, 0⟩ := by
    unfold reflect V3.dot V3.smul V3.sub
    congr 1 <;> norm_num
  have hlenrefl : (reflect ⟨1, 0, 0⟩ ⟨3.1999, 0, 0⟩).length = 19.47872002 := by
    rw [hreflv]
    show Real.sqrt ((-19.47872002:ℝ) * (-19.47872002) + 0 * 0 + 0 * 0) = 19.47872002
    rw [show ((-19.47872002:ℝ) * (-19.47872002) + 0 * 0 + 0 * 0) = 19.47872002 ^ 2 by
      norm_num, Real.sqrt_sq (by norm_num)]
  have htan : V3.sub ⟨0, 1, 0⟩ (V3.smul (V3.dot ⟨0, 1, 0⟩ ⟨3.1999, 0, 0⟩) ⟨3.1999, 0, 0⟩)
      = ⟨0, 1, 0⟩ := by
    unfold V3.dot V3.smul V3.sub
    congr 1 <;> norm_num
  have hcj : collideJitter (vRmsTargetOf 1) ⟨3.1999, 0, 0⟩ ⟨0, 1, 0⟩ 0.5
      (reflect ⟨1, 0, 0⟩ ⟨3.1999, 0, 0⟩) = reflect ⟨1, 0, 0⟩ ⟨3.1999, 0, 0⟩ := by
    simp only [collideJitter, htan]
    rw [if_pos (by
      show (0.00000001:ℝ) < V3.lengthSq ⟨0, 1, 0⟩
      unfold V3.lengthSq
      norm_num)]
    have hz : V3.smul ((0.5 - 0.5) * (0.04 * vRmsTargetOf 1)) (V3.normalize ⟨0, 1, 0⟩)
        = ⟨0, 0, 0⟩ := by
      unfold V3.smul
      congr 1 <;> norm_num
    rw [hz, V3.add_zero_right]
  have hlen1 : V3.length ⟨1, 0, 0⟩ = 1 := by
    show Real.sqrt ((1:ℝ) * 1 + 0 * 0 + 0 * 0) = 1
    rw [show ((1:ℝ) * 1 + 0 * 0 + 0 * 0) = 1 by norm_num, Real.sqrt_one]
  have hv1 : vRmsTargetOf 1 = Real.sqrt 3 := by
    unfold vRmsTargetOf
    norm_num
  have hs3 : Real.sqrt 3 < 2 := by
    have h := Real.sqrt_lt_sqrt (by norm_num : (0:ℝ) ≤ 3) (by norm_num : (3:ℝ) < 4)
    rwa [show Real.sqrt 4 = 2 by
      rw [show (4:ℝ) = 2 ^ 2 by norm_num, Real.sqrt_sq (by norm_num)]] at h
  refine ⟨?_, hlenrefl, ?_, hlen1, ?_⟩
  · rw [hnorm]
    unfold V3.smul
    congr 1 <;> norm_num
  · rw [hcj]
    exact hlenrefl
  · rw [hv1]
    nlinarith

/-! ## Claim C4: parameter settling produces exactly N particles -/

theorem initParticles_length (n : ℕ) (radius T mass : ℝ) (ρ : ℕ → SpawnRand) :
    (initParticles n radius T mass ρ).length = n := by
  simp [initParticles]

theorem clampInside_length (R : ℝ) (p : Particle) (hR : 0 ≤ R) :
    (clampInside R p).position.length ≤ R := by
  unfold clampInside
  split_ifs with h
  · have hlen : 0 < p.position.length := lt_of_le_of_lt hR h
    simp only [V3.length_smul]
    rw [abs_of_nonneg (div_nonneg hR (le_of_lt hlen)), div_mul_cancel₀ _ (ne_of_gt hlen)]
  · exact le_of_not_lt h

/-- C4: after the settling effect runs with target count `N ≥ 1`, the live
particle list has exactly `N` elements; on an increase the previous
particles are kept unchanged as a prefix and every appended particle lies
inside the spawn-time radius (clamped onto the sphere if sampled outside);
on a decrease (or equality) exactly the first `N` particles are kept. -/
theorem c4_settle (n : ℕ) (radius temperature : ℝ) (ρ : ℕ → SpawnRand) (st : SimState)
    (hn : 1 ≤ n) (hR : 0 ≤ st.radius) :
    ((settleParams n radius temperature ρ st).parts.length = n) ∧
    (st.parts.length < n →
      ((settleParams n radius temperature ρ st).parts.take st.parts.length = st.parts ∧
       ∀ q ∈ (settleParams n radius temperature ρ st).parts.drop st.parts.length,
         q.position.length ≤ st.radius)) ∧
    (n ≤ st.parts.length →
      (settleParams n radius temperature ρ st).parts = st.parts.take n) := by
  by_cases h1 : st.parts.length < n
  · have hparts : (settleParams n radius temperature ρ st).parts
        = st.parts ++ (initParticles (n - st.parts.length) st.radius
            (max 1 (jsOr temperature 300)) 1 ρ).map (clampInside st.radius) := by
      simp [settleParams, h1]
    refine ⟨?_, fun _ => ⟨?_, ?_⟩, fun h2 => absurd h2 (not_le.mpr h1)⟩
    · rw [hparts]
      simp [initParticles_length]
      omega
    · rw [hparts]
      exact List.take_left _ _
    · rw [hparts, List.drop_left]
      intro q hq
      obtain ⟨p, hp, hq'⟩ := List.mem_map.mp hq
      rw [← hq']
      exact clampInside_length st.radius p hR
  · push_neg at h1
    by_cases h2 : n < st.parts.length
    · have hparts : (settleParams n radius temperature ρ st).parts = st.parts.take n := by
        simp [settleParams, not_lt.mpr h1, h2]
      refine ⟨?_, fun hlt => absurd hlt (not_lt.mpr h1), fun _ => hparts⟩
      rw [hparts, List.length_take]
      omega
    · have heq : st.parts.length = n := by omega
      have hparts : (settleParams n radius temperature ρ st).parts = st.parts := by
        simp [settleParams, not_lt.mpr h1, h2]
      refine ⟨by rw [hparts, heq], fun hlt => absurd hlt (by omega), fun _ => ?_⟩
      rw [hparts, ← heq, List.take_length]

/-- Witness for C4: settling an empty state to one particle. -/
theorem c4_witness :
    (settleParams 1 1 1 (fun _ => spawn0) stEmpty).parts.length = 1 :=
  (c4_settle 1 1 1 (fun _ => spawn0) stEmpty (by norm_num)
    (by norm_num [stEmpty])).1

/-! ## Claim C2: the thermostat blend -/

theorem sqrt_three_pos : (0:ℝ) < Real.sqrt 3 := Real.sqrt_pos.mpr (by norm_num)

theorem sqrt_three_lt_two : Real.sqrt 3 < 2 := by
  have h := Real.sqrt_lt_sqrt (by norm_num : (0:ℝ) ≤ 3) (by norm_num : (3:ℝ) < 4)
  rwa [show Real.sqrt 4 = 2 by
    rw [show (4:ℝ) = 2 ^ 2 by norm_num, Real.sqrt_sq (by norm_num)]] at h

theorem one_lt_sqrt_three : 1 < Real.sqrt 3 := by
  have h := Real.sqrt_lt_sqrt (by norm_num : (0:ℝ) ≤ 1) (by norm_num : (1:ℝ) < 3)
  rwa [Real.sqrt_one] at h

/-- C2 counterexample: at temperature `300` and a particle of speed `1`, the
thermostat does NOT produce the `0.94 / 0.06` convex blend of the old speed
and the target per-axis std claimed by the spec (the actual new speed is
`0.94 * 1 + 0.06 * vRmsTarget = 2.74`, the blend toward the rms target, not
`0.94 * 1 + 0.06 * stdTarget ≈ 1.98`). -/
theorem c2_counterexample :
    (thermostat (stdTargetOf 300) ⟨1, 0, 0⟩).length ≠
      (1 - 0.06) * (V3.length ⟨1, 0, 0⟩) + 0.06 * stdTargetOf 300 := by
  have h3 := sqrt_three_pos
  have h3ne : Real.sqrt 3 ≠ 0 := ne_of_gt h3
  have hlen1 : V3.length ⟨1, 0, 0⟩ = 1 := by
    show Real.sqrt ((1:ℝ) * 1 + 0 * 0 + 0 * 0) = 1
    rw [show ((1:ℝ) * 1 + 0 * 0 + 0 * 0) = 1 by norm_num, Real.sqrt_one]
  have hstd : stdTargetOf 300 = 30 / Real.sqrt 3 := by
    unfold stdTargetOf
    rw [show (3 * 1 * 300 / 1 : ℝ) = 900 by norm_num]
    rw [show (900:ℝ) = 30 ^ 2 by norm_num, Real.sqrt_sq (by norm_num)]
  have hmax : max 0.000001 (V3.length ⟨1, 0, 0⟩ / Real.sqrt 3)
      = V3.length ⟨1, 0, 0⟩ / Real.sqrt 3 := by
    apply max_eq_right
    rw [hlen1]
    rw [le_div_iff h3]
    nlinarith [sqrt_three_lt_two]
  have hdiv : (30 / Real.sqrt 3) / (V3.length ⟨1, 0, 0⟩ / Real.sqrt 3) = 30 := by
    rw [hlen1]
    field_simp
  have hth : (thermostat (stdTargetOf 300) ⟨1, 0, 0⟩).length = 2.74 := by
    simp only [thermostat, hstd, hmax, hdiv]
    rw [if_pos (by norm_num : (0:ℝ) < (1 - 0.06) + 0.06 * 30)]
    rw [V3.length_smul, hlen1, mul_one]
    rw [abs_of_pos (by norm_num : (0:ℝ) < (1 - 0.06) + 0.06 * 30)]
    norm_num
  rw [hth, hlen1, hstd]
  intro heq
  have h30 : (30:ℝ) / Real.sqrt 3 = 30 := by linarith
  rw [div_eq_iff h3ne] at h30
  nlinarith [one_lt_sqrt_three]

/-- C2 amended: the target per-axis std is `sqrt(3T/1)/sqrt(3)` as claimed,
but the thermostat blend pulls the SPEED toward the target rms speed
`sqrt(3) * stdTarget`, not toward the std: whenever the current per-axis
std `|v|/sqrt(3)` is at least the `1e-6` guard, the new speed is exactly
`0.94 * |v| + 0.06 * (sqrt(3) * stdTarget)` (equivalently, the per-axis std
is the `0.94 / 0.06` blend of the old per-axis std and the target std). -/
theorem c2_amended :
    (∀ T : ℝ, stdTargetOf T = vRmsTargetOf T / Real.sqrt 3) ∧
    (∀ (stdTarget : ℝ) (v : V3), 0 ≤ stdTarget →
      0.000001 ≤ v.length / Real.sqrt 3 →
      (thermostat stdTarget v).length
        = (1 - 0.06) * v.length + 0.06 * (Real.sqrt 3 * stdTarget)) := by
  refine ⟨fun T => rfl, fun stdTarget v hs hv => ?_⟩
  have h3 := sqrt_three_pos
  have hL : 0 < v.length := by
    have h1 : 0.000001 * Real.sqrt 3 ≤ v.length := (le_div_iff h3).mp hv
    nlinarith
  have hmax : max 0.000001 (v.length / Real.sqrt 3) = v.length / Real.sqrt 3 :=
    max_eq_right hv
  have hscale : 0 < (1 - 0.06) + 0.06 * (stdTarget / (v.length / Real.sqrt 3)) := by
    have hq : 0 ≤ stdTarget / (v.length / Real.sqrt 3) :=
      div_nonneg hs (le_of_lt (div_pos hL h3))
    nlinarith
  simp only [thermostat, hmax]
  rw [if_pos hscale, V3.length_smul, abs_of_pos hscale]
  have hLne : v.length ≠ 0 := ne_of_gt hL
  have hkey : stdTarget / (v.length / Real.sqrt 3) * v.length = Real.sqrt 3 * stdTarget := by
    rw [div_div_eq_mul_div, div_mul_cancel₀ _ hLne]
    ring
  linear_combination 0.06 * hkey

/-- Witness for C2 (amended) at a concrete particle of speed `1`. -/
theorem c2_witness :
    (thermostat 0 ⟨1, 0, 0⟩).length
      = (1 - 0.06) * (V3.length ⟨1, 0, 0⟩) + 0.06 * (Real.sqrt 3 * 0) :=
  c2_amended.2 0 ⟨1, 0, 0⟩ (by norm_num)
    (by
      have h3 := sqrt_three_pos
      have hlen1 : V3.length ⟨1, 0, 0⟩ = 1 := by
        show Real.sqrt ((1:ℝ) * 1 + 0 * 0 + 0 * 0) = 1
        rw [show ((1:ℝ) * 1 + 0 * 0 + 0 * 0) = 1 by norm_num, Real.sqrt_one]
      rw [hlen1, le_div_iff h3]
      nlinarith [sqrt_three_lt_two])

/-! ## Claim C3: monotonicity of the radius update -/

theorem easeRadius_mono (R t₁ t₂ : ℝ) (h : t₁ ≤ t₂) :
    easeRadius R t₁ ≤ easeRadius R t₂ := by
  simp only [easeRadius]
  have hmin14 : min 1 (0.12 * (1.4:ℝ)) = 0.168 := by norm_num [min_def]
  have hmin1 : min 1 (0.12 * (1.0:ℝ)) = 0.12 := by norm_num [min_def]
  split_ifs with h1 h2 h2
  · rw [hmin14]
    unfold lerp
    nlinarith
  · exact absurd (lt_of_lt_of_le h1 h) h2
  · rw [hmin1, hmin14]
    unfold lerp
    push_neg at h1
    nlinarith
  · rw [hmin1]
    unfold lerp
    nlinarith

/-- C3 counterexample: the one-step radius is NOT monotone in the ensemble
mean-square speed.  At `R = 2`, `T = 100`, `N = 1`, a mean-square speed of
`0` trips the thermal fallback (`vRms² = 300`), producing a larger eased
radius than the genuine mean-square speed `2`: `0 ≤ 2` yet the radius at
`meanV2 = 2` (namely `1.856`) is strictly below the radius at `meanV2 = 0`. -/
theorem c3_counterexample :
    ((0:ℝ) ≤ 2) ∧ radiusUpdate 2 100 1 2 < radiusUpdate 2 100 1 0 := by
  refine ⟨by norm_num, ?_⟩
  have hπ3 := Real.pi_gt_three
  have hπ4 : Real.pi < 3.15 := Real.pi_lt_315
  have hL : radiusUpdate 2 100 1 2 = 1.856 := by
    simp only [radiusUpdate]
    rw [if_pos (by norm_num : (0.00000001:ℝ) < 2)]
    have hmax1 : max 1 ((1:ℕ):ℝ) = 1 := by norm_num
    rw [hmax1]
    have harg : max 0 (3 * (0.6 + 0.010 * 1 + 0.050 * 2) / (4 * Real.pi))
        = 2.13 / (4 * Real.pi) := by
      rw [max_eq_right (by positivity)]
      norm_num
    rw [harg]
    have hle : cbrt (2.13 / (4 * Real.pi)) ≤ 0.8 := by
      apply cbrt_le_of_le_cube _ _ (by positivity) (by norm_num)
      rw [div_le_iff (by positivity)]
      nlinarith
    rw [clampR_eq_of_le _ _ _ hle (by norm_num)]
    simp only [easeRadius]
    rw [if_neg (by norm_num : ¬ ((2:ℝ) < 0.8))]
    rw [show min 1 (0.12 * (1.0:ℝ)) = 0.12 by norm_num [min_def]]
    unfold lerp
    norm_num
  have hR : 1.856 < radiusUpdate 2 100 1 0 := by
    simp only [radiusUpdate]
    rw [if_neg (by norm_num : ¬ ((0.00000001:ℝ) < 0))]
    have hv : vRmsTargetOf 100 * vRmsTargetOf 100 = 300 := by
      unfold vRmsTargetOf
      rw [show (3 * 1 * 100 / 1 : ℝ) = 300 by norm_num]
      exact Real.mul_self_sqrt (by norm_num)
    rw [hv]
    have hmax1 : max 1 ((1:ℕ):ℝ) = 1 := by norm_num
    rw [hmax1]
    have harg : max 0 (3 * (0.6 + 0.010 * 1 + 0.050 * 300) / (4 * Real.pi))
        = 46.83 / (4 * Real.pi) := by
      rw [max_eq_right (by positivity)]
      norm_num
    rw [harg]
    have h08 : (0.8:ℝ) < cbrt (46.83 / (4 * Real.pi)) := by
      apply lt_cbrt_of_cube_lt _ _ (by norm_num)
      rw [lt_div_iff (by positivity)]
      nlinarith
    have h32 : cbrt (46.83 / (4 * Real.pi)) ≤ 3.2 := by
      apply cbrt_le_of_le_cube _ _ (by positivity) (by norm_num)
      rw [div_le_iff (by positivity)]
      nlinarith
    rw [clampR_eq_self _ _ _ (le_of_lt h08) h32]
    simp only [easeRadius]
    split_ifs with hcase
    · rw [show min 1 (0.12 * (1.4:ℝ)) = 0.168 by norm_num [min_def]]
      unfold lerp
      nlinarith
    · rw [show min 1 (0.12 * (1.0:ℝ)) = 0.12 by norm_num [min_def]]
      unfold lerp
      nlinarith
  linarith

/-- C3 amended: the eased one-step radius is monotonically non-decreasing in
the particle count, and in the mean-square speed as long as the smaller
mean-square speed is above the `1e-8` degeneracy threshold (so the thermal
fallback `vRms²` applies to neither side); the counterexample shows
monotonicity genuinely fails across that threshold. -/
theorem c3_amended (R T : ℝ) (n₁ n₂ : ℕ) (m₁ m₂ : ℝ)
    (hn : n₁ ≤ n₂) (hm0 : 0.00000001 < m₁) (hm : m₁ ≤ m₂) :
    radiusUpdate R T n₁ m₁ ≤ radiusUpdate R T n₂ m₂ := by
  simp only [radiusUpdate]
  rw [if_pos hm0, if_pos (lt_of_lt_of_le hm0 hm)]
  apply easeRadius_mono
  apply clampR_mono
  apply cbrt_mono _ _ (le_max_left 0 _)
  apply max_le_max le_rfl
  have hnn : max 1 ((n₁:ℕ):ℝ) ≤ max 1 ((n₂:ℕ):ℝ) :=
    max_le_max le_rfl (Nat.cast_le.mpr hn)
  rw [div_le_div_iff (by positivity) (by positivity)]
  nlinarith [Real.pi_pos]

/-- Witness for C3 (amended) at concrete counts and mean-square speeds. -/
theorem c3_witness : radiusUpdate 1 1 1 1 ≤ radiusUpdate 1 1 2 2 :=
  c3_amended 1 1 1 2 1 2 (by norm_num) (by norm_num) (by norm_num)

/-! ## Claim C1: boundary containment across a step -/

theorem smul_normalize_length_lt (R : ℝ) (w : V3) (hR : 0.8 ≤ R) (hw : R ≤ w.length) :
    (V3.smul (R - 0.0001) w.normalize).length < R := by
  have hne : w.length ≠ 0 := ne_of_gt (lt_of_lt_of_le (by norm_num) (le_trans hR hw))
  rw [V3.length_smul, V3.normalize_length w hne, mul_one, abs_of_pos (by linarith)]
  linarith

theorem stepParticle_containment (T : ℝ) (g : V3) (dt R : ℝ) (ρ : StepRand) (p : Particle)
    (hR : 0.8 ≤ R) : (stepParticle T g dt R ρ p).position.length < R := by
  simp only [stepParticle]
  split_ifs with h
  · exact smul_normalize_length_lt R _ hR h
  · exact not_le.mp h

/-- C1 amended: containment holds relative to the radius the step used for
collision (the pre-easing radius): starting from any state whose radius is
at least the minimum `0.8`, every particle produced by a step lies strictly
inside that starting radius — non-colliding particles by the branch guard,
colliding ones because they are clamped to `R - 1e-4`.  Containment
relative to the post-easing radius can fail when the easing shrinks the
radius (see the counterexample). -/
theorem c1_amended (grav : Bool) (dt : ℝ) (ρ : ℕ → StepRand) (st : SimState)
    (hR : 0.8 ≤ st.radius) :
    ∀ q ∈ (step grav dt ρ st).parts, q.position.length < st.radius := by
  intro q hq
  have hq' : q ∈ mapWithIndex
      (fun i p => stepParticle st.temperature
        (if grav then ⟨0, -9.8, 0⟩ else ⟨0, 0, 0⟩) dt st.radius (ρ i) p) 0 st.parts := hq
  obtain ⟨j, p, hp, hqe⟩ := mem_mapWithIndex _ _ _ _ hq'
  rw [hqe]
  exact stepParticle_containment _ _ _ _ _ _ hR


theorem length_319 : V3.length ⟨3.19, 0, 0⟩ = 3.19 := by
  show Real.sqrt ((3.19:ℝ) * 3.19 + 0 * 0 + 0 * 0) = 3.19
  rw [show ((3.19:ℝ) * 3.19 + 0 * 0 + 0 * 0) = 3.19 ^ 2 by norm_num,
    Real.sqrt_sq (by norm_num)]

theorem thermostat_zero_vec (s : ℝ) : thermostat s ⟨0, 0, 0⟩ = ⟨0, 0, 0⟩ := by
  simp only [thermostat]
  split_ifs <;> simp [V3.smul]

theorem cex_stepParticle :
    stepParticle 1 ⟨0, 0, 0⟩ 0.008 3.2 rand0 cexPart = cexPart := by
  simp only [stepParticle, cexPart, rand0, V3.zero]
  simp only [thermostat_zero_vec, V3.smul_zero_right, V3.add_zero_right]
  rw [length_319]
  rw [if_neg (by norm_num : ¬ ((3.2:ℝ) ≤ 3.19))]

theorem cex_step_parts :
    (step false 0.008 (fun _ => rand0) cexState).parts = [cexPart] := by
  show [stepParticle 1 ⟨0, 0, 0⟩ 0.008 3.2 rand0 cexPart] = [cexPart]
  rw [cex_stepParticle]

theorem cex_radiusUpdate : radiusUpdate 3.2 1 1 0 = 2.912 := by
  simp only [radiusUpdate]
  rw [if_neg (by norm_num : ¬ ((0.00000001:ℝ) < 0))]
  have hv : vRmsTargetOf 1 * vRmsTargetOf 1 = 3 := by
    unfold vRmsTargetOf
    rw [show (3 * 1 * 1 / 1 : ℝ) = 3 by norm_num]
    exact Real.mul_self_sqrt (by norm_num)
  rw [hv]
  have hmax1 : max 1 ((1:ℕ):ℝ) = 1 := by norm_num
  rw [hmax1]
  have harg : max 0 (3 * (0.6 + 0.010 * 1 + 0.050 * 3) / (4 * Real.pi))
      = 2.28 / (4 * Real.pi) := by
    rw [max_eq_right (by positivity)]
    norm_num
  rw [harg]
  have hle : cbrt (2.28 / (4 * Real.pi)) ≤ 0.8 := by
    apply cbrt_le_of_le_cube _ _ (by positivity) (by norm_num)
    rw [div_le_iff (by positivity)]
    nlinarith [Real.pi_gt_three]
  rw [clampR_eq_of_le _ _ _ hle (by norm_num)]
  simp only [easeRadius]
  rw [if_neg (by norm_num : ¬ ((3.2:ℝ) < 0.8))]
  rw [show min 1 (0.12 * (1.0:ℝ)) = 0.12 by norm_num [min_def]]
  unfold lerp
  norm_num

theorem cex_step_radius :
    (step false 0.008 (fun _ => rand0) cexState).radius = 2.912 := by
  have h1 : (step false 0.008 (fun _ => rand0) cexState).radius
      = radiusUpdate 3.2 1 1
          (if (List.map (fun p : Particle => p.velocity.length)
              [stepParticle 1 ⟨0, 0, 0⟩ 0.008 3.2 rand0 cexPart]).length = 0 then 0
           else ((List.map (fun p : Particle => p.velocity.length)
              [stepParticle 1 ⟨0, 0, 0⟩ 0.008 3.2 rand0 cexPart]).foldl
                (fun a b => a + b * b) 0) /
             (((List.map (fun p : Particle => p.velocity.length)
              [stepParticle 1 ⟨0, 0, 0⟩ 0.008 3.2 rand0 cexPart]).length : ℕ) : ℝ)) := rfl
  rw [cex_stepParticle] at h1
  rw [h1]
  have h2 : (if (List.map (fun p : Particle => p.velocity.length) [cexPart]).length = 0
        then (0:ℝ)
      else ((List.map (fun p : Particle => p.velocity.length) [cexPart]).foldl
          (fun a b => a + b * b) 0) /
        (((List.map (fun p : Particle => p.velocity.length) [cexPart]).length : ℕ) : ℝ))
      = 0 := by
    simp [cexPart, V3.length_zero]
  rw [h2, cex_radiusUpdate]

/-- C1 counterexample: from a legitimate state (radius `3.2` inside the
clamp range, single particle at distance `3.19 < 3.2` from the origin, zero
velocity, temperature `1`, zero noise draws), one integration step shrinks
the radius to `2.912` by easing while the particle stays at `3.19`: after
the step the particle is outside the current radius by more than `0.25`,
far beyond any small numerical tolerance. -/
theorem c1_counterexample :
    0.8 ≤ cexState.radius ∧ cexState.radius ≤ 3.2 ∧
    cexState.parts.headI.position.length < cexState.radius ∧
    (step false 0.008 (fun _ => rand0) cexState).radius + 0.25
      ≤ (step false 0.008 (fun _ => rand0) cexState).parts.headI.position.length := by
  refine ⟨by norm_num [cexState], by norm_num [cexState], ?_, ?_⟩
  · show V3.length ⟨3.19, 0, 0⟩ < (3.2:ℝ)
    rw [length_319]
    norm_num
  · rw [cex_step_radius, cex_step_parts]
    show (2.912:ℝ) + 0.25 ≤ V3.length ⟨3.19, 0, 0⟩
    rw [length_319]
    norm_num

/-- Witness for C1 (amended): the concrete particle stays strictly inside
the pre-easing radius after the step. -/
theorem c1_witness : cexPart.position.length < cexState.radius :=
  c1_amended false 0.008 (fun _ => rand0) cexState (by norm_num [cexState]) cexPart
    (by rw [cex_step_parts]; exact List.mem_singleton_self cexPart)
